import Mathlib

/-!
Shallow embedding of the `rocket` user CRUD service (`src/main.rs`).

The service exposes five HTTP handlers over a Postgres table
`users(id, name, email)` where `id` is the unique key.  Each handler issues
one or two parameterized SQL statements through sqlx.  We model:

* UUIDs as natural numbers (only equality of ids matters to the handlers);
* the `users` table as a list of rows, in store order;
* each database call as a function from the table to a result together with
  the successor table, taking an explicit boolean that says whether this
  particular call suffers a storage failure (connectivity etc.).  A failed
  statement leaves the table unchanged (statements are atomic in Postgres).
  `INSERT` additionally fails when the unique key on `id` is violated
  (schema: `users.id` is the unique key, brought up by the startup
  migration), which sqlx surfaces as the same `Err` the handlers match on.

Handlers are translated clause by clause from the Rust `match` expressions,
including the response body strings.
-/

namespace Rocket

/-- UUIDs: only equality is used by the service, so we model them as `Nat`. -/
abbrev Uuid := Nat

/-- Row of the `users` table / the `User` serde struct in `main.rs`. -/
structure User where
  id : Uuid
  name : String
  email : String
deriving DecidableEq

/-- The `CreateUser` request struct: `name` and `email`, both required. -/
structure CreateUser where
  name : String
  email : String
deriving DecidableEq

/-- The `UpdateUser` request struct: `name` and `email`, both optional. -/
structure UpdateUser where
  name : Option String
  email : Option String
deriving DecidableEq

/-- The `users` table, as the list of its rows in store order. -/
abbrev Table := List User

/-- Result of a database call: `ok` with a value, or a storage error.
sqlx reports the error's detail, but the handlers discard it (`Err(_)`),
so we carry none. -/
inductive DbResult (α : Type) : Type where
  | ok (a : α) : DbResult α
  | err : DbResult α
deriving DecidableEq

/-- HTTP status codes used by the service (actix `HttpResponse`
constructors), plus the framework-level client error for malformed bodies. -/
inductive HttpStatus where
  | ok
  | created
  | badRequest
  | notFound
  | internalServerError
deriving DecidableEq

/-- Response bodies: a JSON `User`, a JSON array of `User`s, or static text. -/
inductive Body where
  | json (u : User) : Body
  | jsonList (us : List User) : Body
  | text (s : String) : Body
deriving DecidableEq

/-- An HTTP response: status plus body. -/
structure Response where
  status : HttpStatus
  body : Body
deriving DecidableEq

/-- `SELECT * FROM users` via `fetch_all`: all rows, in store order. -/
def fetch_all (t : Table) (fail : Bool) : DbResult (List User) × Table :=
  if fail then (.err, t) else (.ok t, t)

/-- `SELECT * FROM users WHERE id = $1` via `fetch_optional`: the first
matching row, if any. -/
def fetch_optional (t : Table) (id : Uuid) (fail : Bool) :
    DbResult (Option User) × Table :=
  if fail then (.err, t)
  else (.ok (t.find? (fun u => u.id == id)), t)

/-- `INSERT INTO users (id, name, email) VALUES ($1, $2, $3)` via `execute`.
Fails on a storage failure or when the unique key on `id` is violated;
otherwise appends the row. -/
def exec_insert (t : Table) (u : User) (fail : Bool) : DbResult Nat × Table :=
  if fail || t.any (fun v => v.id == u.id) then (.err, t)
  else (.ok 1, t ++ [u])

/-- `UPDATE users SET name = $1, email = $2 WHERE id = $3` via `execute`:
rewrites every matching row, reporting the number of rows affected. -/
def exec_update (t : Table) (id : Uuid) (name email : String) (fail : Bool) :
    DbResult Nat × Table :=
  if fail then (.err, t)
  else (.ok (t.countP (fun u => u.id == id)),
        t.map (fun u => if u.id == id then { u with name := name, email := email } else u))

/-- `DELETE FROM users WHERE id = $1` via `execute`: removes every matching
row, reporting the number of rows affected (`rows_affected`). -/
def exec_delete (t : Table) (id : Uuid) (fail : Bool) : DbResult Nat × Table :=
  if fail then (.err, t)
  else (.ok (t.countP (fun u => u.id == id)),
        t.filter (fun u => u.id != id))

/-- Handler for `GET /users` (`get_users` in `main.rs`). -/
def get_users (t : Table) (fail : Bool) : Response × Table :=
  match fetch_all t fail with
  | (.ok users, t1) => (⟨.ok, .jsonList users⟩, t1)
  | (.err, t1) => (⟨.internalServerError, .text "Failed to fetch users"⟩, t1)

/-- Handler for `GET /users/\x7bid\x7d` (`get_user` in `main.rs`). -/
def get_user (t : Table) (id : Uuid) (fail : Bool) : Response × Table :=
  match fetch_optional t id fail with
  | (.ok (some user), t1) => (⟨.ok, .json user⟩, t1)
  | (.ok none, t1) => (⟨.notFound, .text "User not found"⟩, t1)
  | (.err, t1) => (⟨.internalServerError, .text "Error fetching user"⟩, t1)

/-- Handler for `POST /users` (`create_user` in `main.rs`).  `genId` is the
value returned by `Uuid::new_v4()`. -/
def create_user (t : Table) (user : CreateUser) (genId : Uuid) (fail : Bool) :
    Response × Table :=
  match exec_insert t ⟨genId, user.name, user.email⟩ fail with
  | (.ok _, t1) => (⟨.created, .json ⟨genId, user.name, user.email⟩⟩, t1)
  | (.err, t1) => (⟨.internalServerError, .text "Failed to insert user"⟩, t1)

/-- Handler for `PUT /users/\x7bid\x7d` (`update_user` in `main.rs`).  The Rust
code matches `if let Ok(Some(old_user)) = existing` and sends the not-found
response in the `else` branch, so both `Ok(None)` and `Err(_)` of the read
land there. -/
def update_user (t : Table) (id : Uuid) (user : UpdateUser)
    (failRead failWrite : Bool) : Response × Table :=
  match fetch_optional t id failRead with
  | (.ok (some old_user), t1) =>
      let new_name := user.name.getD old_user.name
      let new_email := user.email.getD old_user.email
      match exec_update t1 id new_name new_email failWrite with
      | (.ok _, t2) => (⟨.ok, .json ⟨id, new_name, new_email⟩⟩, t2)
      | (.err, t2) => (⟨.internalServerError, .text "Failed to update user"⟩, t2)
  | (.ok none, t1) => (⟨.notFound, .text "User not found"⟩, t1)
  | (.err, t1) => (⟨.notFound, .text "User not found"⟩, t1)

/-- Handler for `DELETE /users/\x7bid\x7d` (`delete_user` in `main.rs`). -/
def delete_user (t : Table) (id : Uuid) (fail : Bool) : Response × Table :=
  match exec_delete t id fail with
  | (.ok r, t1) =>
      if r > 0 then (⟨.ok, .text "User deleted"⟩, t1)
      else (⟨.notFound, .text "User not found"⟩, t1)
  | (.err, t1) => (⟨.internalServerError, .text "Failed to delete user"⟩, t1)

/-- JSON values, as far as the deserialization of request bodies needs them. -/
inductive JsonValue where
  | null
  | bool (b : Bool)
  | num (n : Int)
  | str (s : String)
deriving DecidableEq

/-- A JSON object body, as an association list of fields. -/
abbrev JsonBody := List (String × JsonValue)

/-- First value bound to key `k` in a JSON object, if any. -/
def jsonLookup (b : JsonBody) (k : String) : Option JsonValue :=
  (b.find? (fun p => p.1 == k)).map (fun p => p.2)

/-- Read a JSON value as a string, as serde does for a `String` field. -/
def asString : Option JsonValue → Option String
  | some (.str s) => some s
  | _ => none

/-- Deserialization of a request body into `CreateUser`, following serde's
derived behaviour for the struct in `main.rs`: `name` and `email` must be
present as strings; any other field is ignored (no `deny_unknown_fields`). -/
def parseCreateUser (b : JsonBody) : Option CreateUser :=
  match asString (jsonLookup b "name"), asString (jsonLookup b "email") with
  | some n, some e => some ⟨n, e⟩
  | _, _ => none

/-- `POST /users` from the raw JSON body: actix rejects a body that fails to
deserialize with a client error before the handler runs; otherwise the
handler runs on the parsed `CreateUser`. -/
def handle_post_users (t : Table) (b : JsonBody) (genId : Uuid) (fail : Bool) :
    Response × Table :=
  match parseCreateUser b with
  | some user => create_user t user genId fail
  | none => (⟨.badRequest, .text "Bad request"⟩, t)

/-! ### Helper lemmas about the SQL-level table operations -/

/-- The row rewrite performed by the `UPDATE` statement. -/
def setFields (id : Uuid) (name email : String) (u : User) : User :=
  if u.id == id then { u with name := name, email := email } else u

theorem exec_update_table (t : Table) (id : Uuid) (n e : String) :
    (exec_update t id n e false).2 = t.map (setFields id n e) := by
  simp [exec_update, setFields]

/-- Looking up `id` after the `UPDATE ... WHERE id` rewrite finds the rewrite
of the row the lookup found before. -/
theorem find?_map_setFields (t : Table) (id : Uuid) (n e : String) :
    (t.map (setFields id n e)).find? (fun u => u.id == id) =
      (t.find? (fun u => u.id == id)).map (setFields id n e) := by
  induction t with
  | nil => rfl
  | cons u t ih =>
      by_cases h : (u.id == id) = true
      · have hset : setFields id n e u = { u with name := n, email := e } := by
          simp [setFields, h]
        have hid : ({ u with name := n, email := e } : User).id = u.id := rfl
        simp [List.map_cons, hset, List.find?_cons_of_pos, h, hid]
      · have hset : setFields id n e u = u := by
          simp [setFields, h]
        simp [List.map_cons, hset, List.find?_cons_of_neg, h, ih]

/-- The `UPDATE ... WHERE id` rewrite changes no row's `id`. -/
theorem map_id_map_setFields (t : Table) (id : Uuid) (n e : String) :
    (t.map (setFields id n e)).map User.id = t.map User.id := by
  rw [List.map_map]
  apply List.map_congr_left
  intro u _
  by_cases h : (u.id == id) = true <;> simp [setFields, h]

/-- The `UPDATE ... WHERE id` rewrite leaves rows with a different `id`
exactly as they were. -/
theorem filter_map_setFields (t : Table) (id : Uuid) (n e : String) :
    (t.map (setFields id n e)).filter (fun u => u.id != id) =
      t.filter (fun u => u.id != id) := by
  induction t with
  | nil => rfl
  | cons u t ih =>
      by_cases h : (u.id == id) = true
      · have heq : u.id = id := by simpa using h
        have hset : setFields id n e u = { u with name := n, email := e } := by
          simp [setFields, h]
        simp [List.map_cons, hset, List.filter_cons, h, ih, heq]
      · have hset : setFields id n e u = u := by
          simp [setFields, h]
        simp [List.map_cons, hset, List.filter_cons, h, ih]

/-! ### Claim theorems -/

/-- C1: for an existing row and a `PUT /users/\x7bid\x7d` body with optional
`name` and `email`, the update stores and returns the merge of the old row
with the body: each field takes the provided value when present and keeps
the stored value otherwise (so name-only keeps email, email-only keeps name,
both replaces both, neither leaves the row unchanged). -/
theorem update_user_merges_fields (t : Table) (id : Uuid) (body : UpdateUser)
    (old : User) (hfind : t.find? (fun u => u.id == id) = some old) :
    (update_user t id body false false).1 =
      ⟨.ok, .json ⟨id, body.name.getD old.name, body.email.getD old.email⟩⟩ ∧
    (update_user t id body false false).2.find? (fun u => u.id == id) =
      some ⟨id, body.name.getD old.name, body.email.getD old.email⟩ := by
  have hid : old.id = id := by
    have hp := List.find?_some hfind
    simpa using hp
  have hmerge : setFields id (body.name.getD old.name) (body.email.getD old.email) old =
      ⟨id, body.name.getD old.name, body.email.getD old.email⟩ := by
    simp [setFields, hid]
  constructor
  · simp [update_user, fetch_optional, hfind, exec_update]
  · simp only [update_user, fetch_optional, if_false, Bool.false_eq_true, ite_false, hfind]
    rw [show (exec_update t id (body.name.getD old.name) (body.email.getD old.email) false) =
        ((exec_update t id (body.name.getD old.name) (body.email.getD old.email) false).1,
         t.map (setFields id (body.name.getD old.name) (body.email.getD old.email))) from
      Prod.ext rfl (exec_update_table ..)]
    simp only [exec_update, if_false, Bool.false_eq_true, ite_false]
    rw [find?_map_setFields, hfind]
    simp [hmerge]

/-- C1 witness: updating the stored row `(1, Ann, ann@x.com)` with a body
supplying only the name yields name `Annie` and the stored email. -/
theorem update_user_merges_fields_witness :
    (update_user [⟨1, "Ann", "ann@x.com"⟩] 1 ⟨some "Annie", none⟩ false false).1 =
      ⟨.ok, .json ⟨1, "Annie", "ann@x.com"⟩⟩ ∧
    (update_user [⟨1, "Ann", "ann@x.com"⟩] 1 ⟨some "Annie", none⟩ false false).2.find?
        (fun u => u.id == 1) = some ⟨1, "Annie", "ann@x.com"⟩ :=
  update_user_merges_fields [⟨1, "Ann", "ann@x.com"⟩] 1 ⟨some "Annie", none⟩
    ⟨1, "Ann", "ann@x.com"⟩ rfl

/-- C2 counterexample: when the existing-row read suffers a storage failure,
`update_user` answers not-found, not the server-error status the claim
requires for every storage failure.  Here the row with id 1 even exists. -/
theorem update_user_read_failure_cex :
    (update_user [⟨1, "Ann", "ann@x.com"⟩] 1 ⟨some "B", none⟩ true false).1 =
      ⟨.notFound, .text "User not found"⟩ ∧
    HttpStatus.notFound ≠ HttpStatus.internalServerError :=
  ⟨rfl, by decide⟩

/-- C2 (amended): `PUT /users/\x7bid\x7d` answers not-found exactly when the
existing-row read does not produce a row — because no such row exists or
because that read itself fails — and answers the server-error status exactly
when the read produced a row and the write-back fails. -/
theorem update_user_status_spec (t : Table) (id : Uuid) (body : UpdateUser)
    (failRead failWrite : Bool) :
    ((update_user t id body failRead failWrite).1.status = .notFound ↔
      (failRead = true ∨ t.find? (fun u => u.id == id) = none)) ∧
    ((update_user t id body failRead failWrite).1.status = .internalServerError ↔
      (failRead = false ∧ (∃ u, t.find? (fun u => u.id == id) = some u) ∧
        failWrite = true)) := by
  cases failRead with
  | true => simp [update_user, fetch_optional]
  | false =>
      cases hfind : t.find? (fun u => u.id == id) with
      | none => simp [update_user, fetch_optional, hfind]
      | some old =>
          cases failWrite with
          | true => simp [update_user, fetch_optional, hfind, exec_update]
          | false => simp [update_user, fetch_optional, hfind, exec_update]

/-- C2 witness: with an empty table and a successful read, the update
answers not-found. -/
theorem update_user_status_spec_witness :
    (update_user [] 1 ⟨none, none⟩ false false).1.status = .notFound :=
  (update_user_status_spec [] 1 ⟨none, none⟩ false false).1.mpr (Or.inr rfl)

/-- C3: `POST /users` answers Created exactly when the `INSERT` succeeds
(no storage failure, unique key on `id` not violated); in that case it
appends the row `(genId, name, email)` and returns that full `User` as JSON;
when the insert fails it answers the server-error status and the table is
unchanged. -/
theorem create_user_spec (t : Table) (body : CreateUser) (genId : Uuid)
    (fail : Bool) :
    ((create_user t body genId fail).1.status = .created ↔
      (fail = false ∧ t.all (fun v => v.id != genId) = true)) ∧
    ((create_user t body genId fail).1.status = .created →
      create_user t body genId fail =
        (⟨.created, .json ⟨genId, body.name, body.email⟩⟩,
         t ++ [⟨genId, body.name, body.email⟩])) ∧
    ((create_user t body genId fail).1.status ≠ .created →
      create_user t body genId fail =
        (⟨.internalServerError, .text "Failed to insert user"⟩, t)) := by
  cases fail with
  | true => simp [create_user, exec_insert]
  | false =>
      cases hany : t.any (fun v => v.id == genId) with
      | true =>
          constructor
          · simp [create_user, exec_insert, hany]
            rw [List.any_eq_true] at hany
            obtain ⟨v, hv, hvid⟩ := hany
            exact ⟨v, hv, by simpa using hvid⟩
          · constructor <;> simp [create_user, exec_insert, hany]
      | false =>
          have hall : ∀ x ∈ t, ¬ x.id = genId := by
            rw [List.any_eq_false] at hany
            intro x hx
            simpa using hany x hx
          refine ⟨?_, ?_, ?_⟩ <;>
            · simp [create_user, exec_insert, hany]
              try exact hall

/-- C3 witness: inserting `(Ann, ann@x.com)` into the empty table with id 1
and no storage failure answers Created with the full user and appends it. -/
theorem create_user_spec_witness :
    create_user [] ⟨"Ann", "ann@x.com"⟩ 1 false =
      (⟨.created, .json ⟨1, "Ann", "ann@x.com"⟩⟩, [⟨1, "Ann", "ann@x.com"⟩]) :=
  (create_user_spec [] ⟨"Ann", "ann@x.com"⟩ 1 false).2.1 rfl

/-- C4: a successful `POST /users` followed immediately by
`GET /users/\x7bid\x7d` on the returned id, with no storage failure on the read,
answers the created user: same id, same name, same email. -/
theorem create_then_get (t : Table) (body : CreateUser) (genId : Uuid)
    (hok : (create_user t body genId false).1.status = .created) :
    (get_user (create_user t body genId false).2 genId false).1 =
      ⟨.ok, .json ⟨genId, body.name, body.email⟩⟩ := by
  cases hany : t.any (fun v => v.id == genId) with
  | true => simp [create_user, exec_insert, hany] at hok
  | false =>
      have ht2 : (create_user t body genId false).2 =
          t ++ [⟨genId, body.name, body.email⟩] := by
        simp [create_user, exec_insert, hany]
      have hnone : t.find? (fun u => u.id == genId) = none := by
        rw [List.find?_eq_none]
        intro x hx
        rw [List.any_eq_false] at hany
        simpa using hany x hx
      rw [ht2]
      simp [get_user, fetch_optional, List.find?_append, hnone]

/-- C4 witness: creating `(Ann, ann@x.com)` with id 1 in the empty table and
reading id 1 back answers that user. -/
theorem create_then_get_witness :
    (get_user (create_user [] ⟨"Ann", "ann@x.com"⟩ 1 false).2 1 false).1 =
      ⟨.ok, .json ⟨1, "Ann", "ann@x.com"⟩⟩ :=
  create_then_get [] ⟨"Ann", "ann@x.com"⟩ 1 rfl

/-- C5: `DELETE /users/\x7bid\x7d` answers success exactly when the call does
not fail and some row matched, not-found exactly when the call does not fail
and no row matched, and the server-error status exactly on storage failure;
deleting the same id twice with no intervening operation and no failure
answers not-found the second time, never success twice. -/
theorem delete_user_spec (t : Table) (id : Uuid) (fail : Bool) :
    ((delete_user t id fail).1.status = .ok ↔
      (fail = false ∧ t.any (fun u => u.id == id) = true)) ∧
    ((delete_user t id fail).1.status = .notFound ↔
      (fail = false ∧ t.any (fun u => u.id == id) = false)) ∧
    ((delete_user t id fail).1.status = .internalServerError ↔ fail = true) ∧
    (delete_user (delete_user t id false).2 id false).1.status = .notFound := by
  have hfilter : ∀ s : Table,
      (s.filter (fun u => u.id != id)).countP (fun u => u.id == id) = 0 := by
    intro s
    rw [List.countP_eq_zero]
    intro a ha
    have := List.of_mem_filter ha
    simpa using this
  have hsecond :
      (delete_user (delete_user t id false).2 id false).1.status = .notFound := by
    have h2 : (delete_user t id false).2 = t.filter (fun u => u.id != id) := by
      by_cases hc : 0 < t.countP (fun u => u.id == id) <;>
        simp [delete_user, exec_delete, hc]
    rw [h2]
    have hz := hfilter t
    simp [delete_user, exec_delete, hz]
  refine ⟨?_, ?_, ?_, hsecond⟩
  · cases fail with
    | true => simp [delete_user, exec_delete]
    | false =>
        by_cases hc : 0 < t.countP (fun u => u.id == id)
        · have hany : t.any (fun u => u.id == id) = true := by
            rw [List.countP_pos_iff] at hc
            rw [List.any_eq_true]
            simpa using hc
          simp [delete_user, exec_delete, hc, hany]
        · have hany : t.any (fun u => u.id == id) = false := by
            rw [List.any_eq_false]
            intro x hx hpx
            exact hc (List.countP_pos_iff.mpr ⟨x, hx, by simpa using hpx⟩)
          simp [delete_user, exec_delete, hc, hany]
  · cases fail with
    | true => simp [delete_user, exec_delete]
    | false =>
        by_cases hc : 0 < t.countP (fun u => u.id == id)
        · have hany : t.any (fun u => u.id == id) = true := by
            rw [List.countP_pos_iff] at hc
            rw [List.any_eq_true]
            simpa using hc
          simp [delete_user, exec_delete, hc, hany]
        · have hany : t.any (fun u => u.id == id) = false := by
            rw [List.any_eq_false]
            intro x hx hpx
            exact hc (List.countP_pos_iff.mpr ⟨x, hx, by simpa using hpx⟩)
          simp [delete_user, exec_delete, hc, hany]
  · cases fail with
    | true => simp [delete_user, exec_delete]
    | false =>
        by_cases hc : 0 < t.countP (fun u => u.id == id) <;>
          simp [delete_user, exec_delete, hc]

/-- C5 witness: deleting id 1 from a table holding it answers success. -/
theorem delete_user_spec_witness :
    (delete_user [⟨1, "Ann", "ann@x.com"⟩] 1 false).1.status = .ok :=
  (delete_user_spec [⟨1, "Ann", "ann@x.com"⟩] 1 false).1.mpr ⟨rfl, rfl⟩

/-- C6: for an id matching no row, `GET /users/\x7bid\x7d` answers not-found
(with its static body) whenever the lookup does not fail, and it answers the
server-error status exactly when the lookup itself fails — so a missing row
yields 404, never 500. -/
theorem get_user_missing_spec (t : Table) (id : Uuid) (fail : Bool) :
    (t.all (fun u => u.id != id) = true → fail = false →
      (get_user t id fail).1 = ⟨.notFound, .text "User not found"⟩) ∧
    ((get_user t id fail).1.status = .internalServerError ↔ fail = true) := by
  constructor
  · intro hall hfail
    subst hfail
    have hnone : t.find? (fun u => u.id == id) = none := by
      rw [List.find?_eq_none]
      intro x hx
      rw [List.all_eq_true] at hall
      simpa using hall x hx
    simp [get_user, fetch_optional, hnone]
  · cases fail with
    | true => simp [get_user, fetch_optional]
    | false =>
        cases hfind : t.find? (fun u => u.id == id) with
        | none => simp [get_user, fetch_optional, hfind]
        | some u => simp [get_user, fetch_optional, hfind]

/-- C6 witness: looking up id 2 in a table holding only id 1 answers
not-found, and a successful lookup is not the server-error status. -/
theorem get_user_missing_spec_witness :
    (get_user [⟨1, "Ann", "ann@x.com"⟩] 2 false).1 =
      ⟨.notFound, .text "User not found"⟩ :=
  (get_user_missing_spec [⟨1, "Ann", "ann@x.com"⟩] 2 false).1 rfl rfl

/-- C7: `GET /users` on success answers a JSON array holding every row of
the table, in store order; on storage failure it answers the server-error
status with the same static body for every table state, leaking no detail. -/
theorem get_users_spec (t : Table) (fail : Bool) :
    (fail = false → get_users t fail = (⟨.ok, .jsonList t⟩, t)) ∧
    (fail = true →
      get_users t fail = (⟨.internalServerError, .text "Failed to fetch users"⟩, t)) := by
  constructor
  · intro h; subst h; simp [get_users, fetch_all]
  · intro h; subst h; simp [get_users, fetch_all]

/-- C7 witness: listing a one-row table answers that row as a JSON array,
and a failing list answers the static server-error response. -/
theorem get_users_spec_witness :
    get_users [⟨1, "Ann", "ann@x.com"⟩] false =
      (⟨.ok, .jsonList [⟨1, "Ann", "ann@x.com"⟩]⟩, [⟨1, "Ann", "ann@x.com"⟩]) ∧
    get_users [⟨1, "Ann", "ann@x.com"⟩] true =
      (⟨.internalServerError, .text "Failed to fetch users"⟩, [⟨1, "Ann", "ann@x.com"⟩]) :=
  ⟨(get_users_spec [⟨1, "Ann", "ann@x.com"⟩] false).1 rfl,
   (get_users_spec [⟨1, "Ann", "ann@x.com"⟩] true).2 rfl⟩

/-- C8: on a successful `PUT /users/\x7bid\x7d` the id in the response body
equals the path id, the stored row looked up under the path id still carries
that id, and the update touches nothing but `name` and `email`: the sequence
of ids in the table is unchanged and every row whose id differs from the
path id is exactly as it was. -/
theorem update_user_id_immutable (t : Table) (id : Uuid) (body : UpdateUser)
    (old : User) (hfind : t.find? (fun u => u.id == id) = some old) :
    (∀ u, (update_user t id body false false).1.body = .json u → u.id = id) ∧
    ((update_user t id body false false).2.map User.id = t.map User.id) ∧
    ((update_user t id body false false).2.filter (fun u => u.id != id) =
      t.filter (fun u => u.id != id)) ∧
    (((update_user t id body false false).2.find? (fun u => u.id == id)).map User.id =
      some id) := by
  have hid : old.id = id := by
    have hp := List.find?_some hfind
    simpa using hp
  have ht2 : (update_user t id body false false).2 =
      t.map (setFields id (body.name.getD old.name) (body.email.getD old.email)) := by
    simp [update_user, fetch_optional, hfind, exec_update, setFields]
  refine ⟨?_, ?_, ?_, ?_⟩
  · intro u hu
    simp [update_user, fetch_optional, hfind, exec_update] at hu
    rw [← hu]
  · rw [ht2, map_id_map_setFields]
  · rw [ht2, filter_map_setFields]
  · rw [ht2, find?_map_setFields, hfind]
    simp [setFields, hid]

/-- C8 witness: updating id 1 in a two-row table keeps both ids, leaves the
row with id 2 untouched, and reports id 1 in the body and the store. -/
theorem update_user_id_immutable_witness :
    (∀ u, (update_user [⟨1, "Ann", "ann@x.com"⟩, ⟨2, "Bob", "bob@x.com"⟩] 1
        ⟨some "Annie", none⟩ false false).1.body = .json u → u.id = 1) ∧
    ((update_user [⟨1, "Ann", "ann@x.com"⟩, ⟨2, "Bob", "bob@x.com"⟩] 1
        ⟨some "Annie", none⟩ false false).2.map User.id =
      ([⟨1, "Ann", "ann@x.com"⟩, ⟨2, "Bob", "bob@x.com"⟩] : Table).map User.id) ∧
    ((update_user [⟨1, "Ann", "ann@x.com"⟩, ⟨2, "Bob", "bob@x.com"⟩] 1
        ⟨some "Annie", none⟩ false false).2.filter (fun u => u.id != 1) =
      ([⟨1, "Ann", "ann@x.com"⟩, ⟨2, "Bob", "bob@x.com"⟩] : Table).filter
        (fun u => u.id != 1)) ∧
    (((update_user [⟨1, "Ann", "ann@x.com"⟩, ⟨2, "Bob", "bob@x.com"⟩] 1
        ⟨some "Annie", none⟩ false false).2.find? (fun u => u.id == 1)).map User.id =
      some 1) :=
  update_user_id_immutable [⟨1, "Ann", "ann@x.com"⟩, ⟨2, "Bob", "bob@x.com"⟩] 1
    ⟨some "Annie", none⟩ ⟨1, "Ann", "ann@x.com"⟩ rfl

/-- C9: deserialization of a `POST /users` body reads only the `name` and
`email` fields — two bodies agreeing on those two lookups are handled
identically, so any extra field such as a client-supplied `id` has no
effect — and a Created response carries a user whose id is the
server-generated one, the very row appended to the table. -/
theorem post_ignores_unknown_fields (b b2 : JsonBody) (t : Table)
    (genId : Uuid) (fail : Bool)
    (hn : jsonLookup b "name" = jsonLookup b2 "name")
    (he : jsonLookup b "email" = jsonLookup b2 "email") :
    handle_post_users t b genId fail = handle_post_users t b2 genId fail ∧
    (∀ u t1, handle_post_users t b genId fail = (⟨.created, .json u⟩, t1) →
      u.id = genId ∧ t1 = t ++ [u]) := by
  have hparse : parseCreateUser b = parseCreateUser b2 := by
    simp [parseCreateUser, hn, he]
  constructor
  · simp [handle_post_users, hparse]
  · intro u t1 hres
    cases hp : parseCreateUser b with
    | none => simp [handle_post_users, hp] at hres
    | some cu =>
        simp only [handle_post_users, hp] at hres
        by_cases hc : (fail || t.any (fun v => v.id == genId)) = true
        · simp [create_user, exec_insert, hc] at hres
        · have hcreate : create_user t cu genId fail =
              (⟨.created, .json ⟨genId, cu.name, cu.email⟩⟩,
               t ++ [⟨genId, cu.name, cu.email⟩]) := by
            simp [create_user, exec_insert, hc]
          rw [hcreate] at hres
          have hu : Body.json (⟨genId, cu.name, cu.email⟩ : User) = .json u :=
            congrArg (fun p => p.1.body) hres
          injection hu with hu2
          have ht1 : t ++ [(⟨genId, cu.name, cu.email⟩ : User)] = t1 :=
            congrArg Prod.snd hres
          exact ⟨by rw [← hu2], by rw [← ht1, hu2]⟩

/-- C9 witness: a body smuggling an `id` field is handled exactly like the
same body without it, and the created user's id is the generated 7. -/
theorem post_ignores_unknown_fields_witness :
    handle_post_users [] [("name", .str "Ann"), ("email", .str "ann@x.com"),
        ("id", .str "99")] 7 false =
      handle_post_users [] [("name", .str "Ann"), ("email", .str "ann@x.com")] 7 false :=
  (post_ignores_unknown_fields
    [("name", .str "Ann"), ("email", .str "ann@x.com"), ("id", .str "99")]
    [("name", .str "Ann"), ("email", .str "ann@x.com")] [] 7 false rfl rfl).1

/-- C10: the two read handlers never change the table: for every starting
state, `GET /users` and `GET /users/\x7bid\x7d` hand back the table exactly as
received, whether they succeed, find no row, or hit a storage failure. -/
theorem read_handlers_pure (t : Table) (id : Uuid) (failA failB : Bool) :
    (get_users t failA).2 = t ∧ (get_user t id failB).2 = t := by
  constructor
  · cases failA <;> simp [get_users, fetch_all]
  · cases failB with
    | true => simp [get_user, fetch_optional]
    | false =>
        cases hfind : t.find? (fun u => u.id == id) with
        | none => simp [get_user, fetch_optional, hfind]
        | some u => simp [get_user, fetch_optional, hfind]

end Rocket
